import Mathlib

/-!
Verification development for the jotform-worker repository.

The repository consists of four near-identical batch scripts (two scripts
concatenated in `src/worker.js`, plus `src/unnamed/part_000` and
`src/unnamed/part_001`).  Each script enumerates pending form submissions from
a relational store, fetches each referenced file from an origin host, writes
the bytes into an object-storage bucket with replace-if-exists semantics, and
inserts an audit row.  `part_000` additionally maintains a denormalized
profile-aggregate row, and `part_001` derives its fetch jobs from a nested
answer payload instead of a flat file-reference list.

The scripts are shallowly embedded below.  External effects are modelled by
explicit state passing and oracle functions:

* an HTTP fetch is an oracle returning either a resolved 2xx response (body
  bytes plus an optional content-type header), a resolved non-2xx response
  (`res.ok` is false), or a rejected promise (network-level failure, which
  `await fetch(...)` re-raises into the calling async function);
* the object store is an association list from hierarchical keys to stored
  objects; its put capability is modelled from the specification of the
  external store (a key, a byte payload, a content-type and an overwrite
  flag), with unrelated infrastructure failures abstracted by an oracle;
* the relational audit table is the list of rows whose insertion the run
  attempted; the profile table is an association list from submission ids to
  the stored value of the images column.

JavaScript exceptions are modelled explicitly: each loop returns the state
reached so far together with `Option JsError`; `some e` means the original
code threw at that point and the exception propagated out of the loops (in
`worker.js` it is then caught by the top-level `run().catch`, which only
logs).  In particular `originalUrl.split("/")` on a missing `originalUrl`
throws a TypeError, and `for (const f of xs)` over a non-array throws a
TypeError.
-/

/-- Byte payload of a downloaded or stored file, abstracted as a list of
byte values. -/
abbrev Bytes := List Nat

/-- Rendering of a JavaScript value inside a template literal: `undefined`
prints as the string "undefined", a string prints as itself. -/
def jsStr : Option String → String
  | none => "undefined"
  | some s => s

/-- JavaScript `x || d` for a nullable string: `null`/`undefined` and the
empty string are falsy, so they yield the default `d`. -/
def jsOr : Option String → String → String
  | none, d => d
  | some s, d => if s = "" then d else s

/-- Embedding of `url.split("/").pop()`: the substring after the final `/`
(the whole string when it has no `/`).  `split` of a string is never the
empty array, so `pop` is exactly the last `/`-separated segment, which is the
sequence of characters after the last separator. -/
def lastSegmentAux : List Char → List Char → List Char
  | [], acc => acc
  | c :: cs, acc => if c = '/' then lastSegmentAux cs [] else lastSegmentAux cs (acc ++ [c])

/-- Final path segment of an origin URL, see `lastSegmentAux`. -/
def lastSegment (url : String) : String :=
  String.mk (lastSegmentAux url.toList [])

/-- Outcome of one HTTP fetch as observed by the scripts: a resolved 2xx
response carrying body bytes and an optional content-type header, a resolved
non-2xx response (`res.ok` is false, the scripts log and return null), or a
rejected promise (network-level failure, which `await` re-raises). -/
inductive FetchOutcome where
  | success (body : Bytes) (contentType : Option String)
  | httpError (status : Nat)
  | reject
deriving DecidableEq

/-- A JavaScript exception escaping the per-file pipeline: a TypeError (for
example `undefined.split`), a rejected fetch promise, or a rethrown database
error from the enumeration query (`if (error) throw error`). -/
inductive JsError where
  | typeError
  | fetchRejected
  | dbError (msg : String)
deriving DecidableEq

/-- Result of a successful download: the body bytes and the content type
after the `|| "image/jpeg"` default. -/
structure DL where
  buffer : Bytes
  contentType : String
deriving DecidableEq

/-- An object held by the storage bucket: payload bytes and content type. -/
structure StoredObj where
  buffer : Bytes
  contentType : String
deriving DecidableEq

/-- State of the object-storage bucket: an association list from hierarchical
keys to stored objects. -/
abbrev Store := List (String × StoredObj)

/-- Lookup in an association list by key. -/
def lookupKey {α : Type} : List (String × α) → String → Option α
  | [], _ => none
  | (k, v) :: rest, key => if k = key then some v else lookupKey rest key

/-- Replace-or-insert in an association list: overwrites the first binding of
the key in place, or appends a new binding when the key is absent. -/
def setKey {α : Type} : List (String × α) → String → α → List (String × α)
  | [], key, v => [(key, v)]
  | (k, w) :: rest, key, v =>
    if k = key then (key, v) :: rest else (k, w) :: setKey rest key v

/-- Options passed by the scripts to the storage upload call. -/
structure UploadOptions where
  upsert : Bool
  contentType : String
deriving DecidableEq

/-- Error class of the external object store: a conflict on an occupied key
(only possible without the overwrite flag) or an unrelated infrastructure
failure. -/
inductive StoreErr where
  | conflict
  | infra
deriving DecidableEq

/-- Modelled from the spec: the external object store put capability (spec
section 6: "a put capability taking a hierarchical key, a byte payload, a
content-type, and an overwrite flag"; spec section 3: "Overwriting an
existing key is permitted (idempotent replace), never an error").  Without
the overwrite flag a put to an occupied key is a conflict error; with it the
object is replaced.  Infrastructure failures unrelated to key occupancy are
abstracted by the oracle `fail`. -/
def storagePut (fail : String → Bool) (store : Store) (path : String) (buffer : Bytes)
    (opts : UploadOptions) : Except StoreErr Store :=
  if fail path then .error .infra
  else if (lookupKey store path).isSome && !opts.upsert then .error .conflict
  else .ok (setKey store path ⟨buffer, opts.contentType⟩)

/-- Embedding of `uploadToStorage` (worker.js lines 48-59 and 166-180,
part_000 lines 60-74, part_001 lines 40-53, all textually identical up to
the returned success value): puts the object under the given path with
`upsert: true` and the given content type; on a storage error it logs and
returns null (`none`), otherwise it reports success together with the new
state of the bucket. -/
def uploadToStorage (fail : String → Bool) (store : Store) (path : String)
    (buffer : Bytes) (contentType : String) : Option Store :=
  match storagePut fail store path buffer ⟨true, contentType⟩ with
  | .error _ => none
  | .ok store2 => some store2

/-- One entry of a submission file-reference list (`file_uris`); both fields
come from JSON and may be absent, which JavaScript reads as `undefined`. -/
structure FileRef where
  originalUrl : Option String
  fieldId : Option String
deriving DecidableEq

/-- Value of the `file_uris` column of one row: a JSON array of file
references, JSON null, an absent field (`undefined`), or some other
non-array value. -/
inductive FileUrisVal where
  | arr (refs : List FileRef)
  | null
  | absent
  | other
deriving DecidableEq

/-- One row returned by the enumeration query
`select("submission_id, file_uris")`. -/
structure SubRow where
  submission_id : String
  file_uris : FileUrisVal
deriving DecidableEq

/-- The file-reference list of a row, empty for any non-array value.  Used
only to state theorems about rows whose `file_uris` is an array. -/
def refsOf : FileUrisVal → List FileRef
  | .arr refs => refs
  | _ => []

/-- Embedding of the filter predicate of `getPending`:
`Array.isArray(s.file_uris) && s.file_uris.length > 0`. -/
def isNonEmptyFileUris : FileUrisVal → Bool
  | .arr refs => refs.length != 0
  | _ => false

/-- Embedding of `getPending` (worker.js lines 18-25 and 128-139, part_000
lines 23-33, textually identical): the query either yields an error, which
the function rethrows (`if (error) throw error`), or rows, which are
filtered to those whose `file_uris` is a non-empty array. -/
def getPending (rows : Except String (List SubRow)) : Except String (List SubRow) :=
  match rows with
  | .error e => .error e
  | .ok data => .ok (data.filter fun s => isNonEmptyFileUris s.file_uris)

/-- One row whose insertion into `provider_images` was attempted by
`saveRecord` (worker.js lines 62-69 and 185-196, part_000 lines 79-90,
part_001 lines 55-62).  `field_id` is the raw JSON field, possibly absent. -/
structure AuditRow where
  submission_id : String
  field_id : Option String
  original_url : String
  stored_path : String
deriving DecidableEq

namespace WorkerDirect

/-! Embedding of the first script in `src/worker.js` (lines 1-107), the
direct-URL strategy.  The reconciliation loop of `src/unnamed/part_000`
(lines 128-172) is the same loop extended with the profile-aggregate update,
which is embedded separately in the `WorkerProfile` namespace. -/

/-- Oracles for the external world of the direct-URL script: the HTTP fetch
of an origin URL, and infrastructure failures of the object store by key. -/
structure World where
  fetch : String → FetchOutcome
  storeFail : String → Bool

/-- Embedding of `downloadOriginal` (worker.js lines 28-45): fetches the
origin URL; a rejected fetch promise is re-raised by `await`; a non-2xx
response is logged and turned into null; a 2xx response yields the body and
the content-type header defaulted through `|| "image/jpeg"`. -/
def downloadOriginal (w : World) (originalUrl : String) : Except JsError (Option DL) :=
  match w.fetch originalUrl with
  | .reject => .error .fetchRejected
  | .httpError _ => .ok none
  | .success body ct => .ok (some ⟨body, jsOr ct "image/jpeg"⟩)

/-- Observable state threaded through one run: the object store, the audit
rows inserted so far, and the origin URLs on which a fetch was attempted, in
order. -/
structure St where
  store : Store
  audits : List AuditRow
  fetched : List String
deriving DecidableEq

/-- Record one fetch attempt in the trace. -/
def addFetched (st : St) (url : String) : St :=
  { st with fetched := st.fetched ++ [url] }

/-- Embedding of the inner per-file loop of `run` (worker.js lines 84-101).
For each file reference: read `originalUrl` (a missing value makes
`originalUrl.split("/")` throw a TypeError), derive the filename, attempt
the download (recorded in the fetch trace; a rejected promise propagates),
on a null download continue with the next file, otherwise upload under the
deterministic path and, on upload success, insert the audit row. -/
def processFiles (w : World) (submissionId : String) :
    List FileRef → St → St × Option JsError
  | [], st => (st, none)
  | file :: rest, st =>
    match file.originalUrl with
    | none => (st, some .typeError)
    | some originalUrl =>
      let filename := lastSegment originalUrl
      let st1 := addFetched st originalUrl
      match downloadOriginal w originalUrl with
      | .error e => (st1, some e)
      | .ok none => processFiles w submissionId rest st1
      | .ok (some dl) =>
        let path := submissionId ++ "/" ++ jsStr file.fieldId ++ "/" ++ filename
        match uploadToStorage w.storeFail st1.store path dl.buffer dl.contentType with
        | none => processFiles w submissionId rest st1
        | some store2 =>
          processFiles w submissionId rest
            { st1 with
              store := store2
              audits := st1.audits ++ [⟨submissionId, file.fieldId, originalUrl, path⟩] }

/-- Embedding of the outer per-submission loop of `run` (worker.js lines
78-102).  Iterating `for (const file of files)` over a non-array value
throws a TypeError; an exception escaping the inner loop aborts the
remaining submissions as well. -/
def processSubs (w : World) : List SubRow → St → St × Option JsError
  | [], st => (st, none)
  | sub :: rest, st =>
    match sub.file_uris with
    | .arr files =>
      match processFiles w sub.submission_id files st with
      | (st2, none) => processSubs w rest st2
      | (st2, some e) => (st2, some e)
    | _ => (st, some .typeError)

/-- Embedding of `run` (worker.js lines 72-105) from a given initial state
of the object store: enumerate via `getPending` (whose rethrown query error
rejects the whole run), then process every enumerated submission. -/
def run (w : World) (store0 : Store) (rows : Except String (List SubRow)) :
    St × Option JsError :=
  match getPending rows with
  | .error e => (⟨store0, [], []⟩, some (.dbError e))
  | .ok submissions => processSubs w submissions ⟨store0, [], []⟩

/-- The two environment variables read at startup (worker.js lines 5-6);
`none` models an unset variable. -/
structure Env where
  SUPABASE_URL : Option String
  SUPABASE_SERVICE_ROLE_KEY : Option String

/-- JavaScript truthiness test used by `!SUPABASE_URL`: unset (`undefined`)
and the empty string are falsy. -/
def jsFalsy : Option String → Bool
  | none => true
  | some s => s == ""

/-- Condition of the startup guard (worker.js line 9). -/
def envMissing (env : Env) : Bool :=
  jsFalsy env.SUPABASE_URL || jsFalsy env.SUPABASE_SERVICE_ROLE_KEY

/-- Embedding of the top level of worker.js: the startup environment check
(lines 9-12, `process.exit(1)`) and `run().catch(err => console.error("FATAL:", err))`
(line 107).  The result is the process exit code, the run outcome when the
pipeline was started, and whether the FATAL line was logged.  A rejection of
`run()` is handled by `.catch`, which only logs: it neither rethrows nor
sets the exit code, so the process still exits 0. -/
def mainResult (env : Env) (w : World) (store0 : Store)
    (rows : Except String (List SubRow)) :
    Nat × Option (St × Option JsError) × Bool :=
  if envMissing env then (1, none, false)
  else
    match run w store0 rows with
    | (st, some e) => (0, some (st, some e), true)
    | (st, none) => (0, some (st, none), false)

end WorkerDirect

namespace WorkerIndexed

/-! Embedding of the second script in `src/worker.js` (lines 108-251), the
index strategy: files are fetched from the origin API by the positional
index of the file within the submission, tracked by the `fileIndex`
counter. -/

/-- Oracles for the external world of the index-strategy script: the origin
file API keyed by submission id and positional file index, and
infrastructure failures of the object store by key. -/
structure World where
  fetchFile : String → Nat → FetchOutcome
  storeFail : String → Bool

/-- Embedding of `downloadImage` (worker.js lines 147-161): fetches the
origin file endpoint for (submissionId, fileIndex); the `filename` argument
is unused, as in the source, whose URL mentions only the id and the index.
A rejected fetch promise is re-raised by `await`; a non-2xx response is
logged and turned into null. -/
def downloadImage (w : World) (submissionId : String) (fileIndex : Nat)
    (filename : String) : Except JsError (Option DL) :=
  match w.fetchFile submissionId fileIndex with
  | .reject => .error .fetchRejected
  | .httpError _ => .ok none
  | .success body ct => .ok (some ⟨body, jsOr ct "image/jpeg"⟩)

/-- Observable state of the index-strategy run: the object store, the audit
rows inserted so far, and the (submission id, file index) pairs on which a
download was attempted, in order. -/
structure St where
  store : Store
  audits : List AuditRow
  downloads : List (String × Nat)
deriving DecidableEq

/-- Embedding of the inner per-file loop of `run` (worker.js lines 214-244):
`fileIndex` starts at the given value and is incremented on each of the
three continuation paths (download failure, upload failure, success); a
missing `originalUrl` makes `originalUrl.split("/")` throw a TypeError. -/
def processFiles (w : World) (submissionId : String) :
    List FileRef → Nat → St → St × Option JsError
  | [], _, st => (st, none)
  | file :: rest, fileIndex, st =>
    match file.originalUrl with
    | none => (st, some .typeError)
    | some originalUrl =>
      let filename := lastSegment originalUrl
      let st1 := { st with downloads := st.downloads ++ [(submissionId, fileIndex)] }
      match downloadImage w submissionId fileIndex filename with
      | .error e => (st1, some e)
      | .ok none => processFiles w submissionId rest (fileIndex + 1) st1
      | .ok (some dl) =>
        let path := submissionId ++ "/" ++ jsStr file.fieldId ++ "/" ++ filename
        match uploadToStorage w.storeFail st1.store path dl.buffer dl.contentType with
        | none => processFiles w submissionId rest (fileIndex + 1) st1
        | some store2 =>
          processFiles w submissionId rest (fileIndex + 1)
            { st1 with
              store := store2
              audits := st1.audits ++ [⟨submissionId, file.fieldId, originalUrl, path⟩] }

/-- Embedding of the outer per-submission loop of `run` (worker.js lines
208-245): `let fileIndex = 0` resets the counter for every submission. -/
def processSubs (w : World) : List SubRow → St → St × Option JsError
  | [], st => (st, none)
  | sub :: rest, st =>
    match sub.file_uris with
    | .arr files =>
      match processFiles w sub.submission_id files 0 st with
      | (st2, none) => processSubs w rest st2
      | (st2, some e) => (st2, some e)
    | _ => (st, some .typeError)

/-- Embedding of `run` (worker.js lines 201-248) from a given initial state
of the object store. -/
def run (w : World) (store0 : Store) (rows : Except String (List SubRow)) :
    St × Option JsError :=
  match getPending rows with
  | .error e => (⟨store0, [], []⟩, some (.dbError e))
  | .ok submissions => processSubs w submissions ⟨store0, [], []⟩

end WorkerIndexed

namespace WorkerAnswers

/-! Embedding of `src/unnamed/part_001`, the answer-payload strategy: fetch
jobs are derived from the keyed `answers` structure of the raw submission
payload instead of a flat file-reference list. -/

/-- Value of one answer entry: a single origin URL string, a list of origin
URL strings, or an absent value (`undefined`). -/
inductive Answer where
  | str (s : String)
  | arr (urls : List String)
  | undef
deriving DecidableEq

/-- One entry of the `answers` object: its declared control type (possibly
absent) and its answer value. -/
structure Ans where
  type : Option String
  answer : Answer
deriving DecidableEq

/-- One row returned by the enumeration query of part_001
(`select("submission_id, raw_payload")`); `raw_payload_answers` models
`sub.raw_payload?.answers`, with `none` for a missing payload or a missing
(or falsy) `answers` field, and the list holding the keyed entries in the
iteration order of `Object.keys`. -/
structure SubRowP where
  submission_id : String
  raw_payload_answers : Option (List (String × Ans))
deriving DecidableEq

/-- Embedding of `getPending` of part_001 (lines 16-23): the query either
yields an error, which the function rethrows (`if (error) throw error`), or
rows, which are returned exactly as retrieved (`return data;`) — unlike the
other variants, this enumerator applies no filter at all, so no submission
is excluded here whatever its file references. -/
def getPending (rows : Except String (List SubRowP)) : Except String (List SubRowP) :=
  match rows with
  | .error e => .error e
  | .ok data => .ok data

/-- Oracles for the external world of part_001: the origin file API keyed by
submission id and field id, and infrastructure failures of the object store
by key. -/
structure World where
  fetchFile : String → String → FetchOutcome
  storeFail : String → Bool

/-- Embedding of `downloadImage` (part_001 lines 25-38): fetches the origin
file endpoint for (submissionId, fieldId); the `filename` argument is unused,
as in the source.  A rejected fetch promise is re-raised by `await`; a
non-2xx response is logged and turned into null. -/
def downloadImage (w : World) (submissionId : String) (fieldId : String)
    (filename : String) : Except JsError (Option DL) :=
  match w.fetchFile submissionId fieldId with
  | .reject => .error .fetchRejected
  | .httpError _ => .ok none
  | .success body ct => .ok (some ⟨body, jsOr ct "image/jpeg"⟩)

/-- Observable state of the part_001 run: the object store, the audit rows
inserted so far, and the (submission id, field id, filename) triples on
which a download was attempted, in order. -/
structure St where
  store : Store
  audits : List AuditRow
  downloads : List (String × String × String)
deriving DecidableEq

/-- Embedding of
`const urls = Array.isArray(ans.answer) ? ans.answer : [ans.answer]`
(part_001 line 77): an array is used as is, any non-array value (a string or
`undefined`) is wrapped into a one-element list.  Elements are optional
strings because an undefined answer yields the list `[undefined]`. -/
def normalizeAnswer : Answer → List (Option String)
  | .arr urls => urls.map some
  | .str s => [some s]
  | .undef => [none]

/-- Embedding of the innermost per-URL loop of `run` (part_001 lines 79-91):
`url.split("/")` on an undefined URL throws a TypeError; otherwise download
(recorded in the trace), on failure continue with the next URL, otherwise
upload and, on upload success, insert the audit row. -/
def processUrls (w : World) (submissionId fieldId : String) :
    List (Option String) → St → St × Option JsError
  | [], st => (st, none)
  | none :: _, st => (st, some .typeError)
  | some url :: rest, st =>
    let filename := lastSegment url
    let st1 := { st with downloads := st.downloads ++ [(submissionId, fieldId, filename)] }
    match downloadImage w submissionId fieldId filename with
    | .error e => (st1, some e)
    | .ok none => processUrls w submissionId fieldId rest st1
    | .ok (some dl) =>
      let path := submissionId ++ "/" ++ fieldId ++ "/" ++ filename
      match uploadToStorage w.storeFail st1.store path dl.buffer dl.contentType with
      | none => processUrls w submissionId fieldId rest st1
      | some store2 =>
        processUrls w submissionId fieldId rest
          { st1 with
            store := store2
            audits := st1.audits ++ [⟨submissionId, some fieldId, url, path⟩] }

/-- Embedding of the per-answer loop of `run` (part_001 lines 73-93): only
entries whose declared type is strictly equal to "control_fileupload" are
processed; their answer value is normalized to a list of URLs first. -/
def processAnswers (w : World) (submissionId : String) :
    List (String × Ans) → St → St × Option JsError
  | [], st => (st, none)
  | (fieldId, ans) :: rest, st =>
    if ans.type == some "control_fileupload" then
      match processUrls w submissionId fieldId (normalizeAnswer ans.answer) st with
      | (st2, none) => processAnswers w submissionId rest st2
      | (st2, some e) => (st2, some e)
    else
      processAnswers w submissionId rest st

/-- Embedding of the per-submission loop of `run` (part_001 lines 69-94):
`sub.raw_payload?.answers || {}` degrades a missing payload or answers
field to the empty object. -/
def processSubs (w : World) : List SubRowP → St → St × Option JsError
  | [], st => (st, none)
  | sub :: rest, st =>
    match processAnswers w sub.submission_id (sub.raw_payload_answers.getD []) st with
    | (st2, none) => processSubs w rest st2
    | (st2, some e) => (st2, some e)

/-- Embedding of `run` (part_001 lines 64-97) from a given initial state of
the object store: enumerate via the unfiltering `getPending` of part_001
(whose rethrown query error rejects the whole run), then process every
returned submission. -/
def run (w : World) (store0 : Store) (rows : Except String (List SubRowP)) :
    St × Option JsError :=
  match getPending rows with
  | .error e => (⟨store0, [], []⟩, some (.dbError e))
  | .ok submissions => processSubs w submissions ⟨store0, [], []⟩

end WorkerAnswers

namespace WorkerProfile

/-! Embedding of `updateProfileImages` from `src/unnamed/part_000` (lines
95-123), the profile-aggregate read-modify-write. -/

/-- One entry appended to the profile images collection by the part_000 run
(lines 160-165). -/
structure Image where
  stored_path : String
  url : String
  fieldId : Option String
  originalUrl : Option String
deriving DecidableEq

/-- Stored value of the `images` column of a profile row: an array of
entries, or any non-array value (`null` or other), which the source treats
as the empty collection. -/
inductive ImagesVal where
  | arr (imgs : List Image)
  | nonArray
deriving DecidableEq

/-- The `provider_profiles` table restricted to the columns this function
touches: an association list from submission id to the `images` value.  The
`updated_at` timestamp column also written by the source is not modelled. -/
abbrev Table := List (String × ImagesVal)

/-- Oracles for the database effects of `updateProfileImages`: failure of
the initial select and failure of the update, keyed by submission id. -/
structure World where
  readFail : String → Bool
  updateFail : String → Bool

/-- Coercion used in step 2 of the source:
`Array.isArray(data.images) ? [...data.images] : []`. -/
def imagesAsArray : ImagesVal → List Image
  | .arr imgs => imgs
  | .nonArray => []

/-- Embedding of `updateProfileImages` (part_000 lines 95-123).  Step 1
reads the profile row with `.single()`, which errors when the query fails or
no row matches; on a read error the function logs and returns, leaving the
table untouched.  Step 2 copies the current collection (a non-array value
becomes the empty collection) and appends the new entry.  Step 3 writes the
full collection back; on an update error the function only logs, so the
table is also untouched in that case. -/
def updateProfileImages (w : World) (profiles : Table) (submissionId : String)
    (newImage : Image) : Table :=
  if w.readFail submissionId then profiles
  else
    match lookupKey profiles submissionId with
    | none => profiles
    | some images =>
      let updatedImages := imagesAsArray images ++ [newImage]
      if w.updateFail submissionId then profiles
      else setKey profiles submissionId (.arr updatedImages)

end WorkerProfile

/-! Derived notions used to state properties of whole runs. -/

/-- All origin URLs listed by the file references of the given rows, in
enumeration order (used to describe the expected fetch trace of the
direct-URL variant). -/
def allUrls : List SubRow → List String
  | [] => []
  | s :: rest => (refsOf s.file_uris).filterMap (fun f => f.originalUrl) ++ allUrls rest

/-- All (submission id, positional index) download jobs of the given rows,
in enumeration order, the index counting the file references of each
submission from 0 (used to describe the expected download trace of the
index-strategy variant). -/
def allIdx : List SubRow → List (String × Nat)
  | [] => []
  | s :: rest =>
    ((List.range (refsOf s.file_uris).length).map fun k => (s.submission_id, k)) ++ allIdx rest

/-- Content-type invariant of a bucket state: every stored object has a
non-empty content type. -/
def storeCT (store : Store) : Prop :=
  ∀ p o, lookupKey store p = some o → o.contentType ≠ ""

/-! Concrete fixtures used by witnesses and counterexamples. -/

/-- World whose fetches all succeed with body `[2, 3]` and no content-type
header, and whose store never fails. -/
def wAllOk : WorkerDirect.World :=
  ⟨fun _ => FetchOutcome.success [2, 3] none, fun _ => false⟩

/-- World in which the fetch of URL "u1" is a rejected promise (network
failure) and every other fetch succeeds. -/
def wRejectU1 : WorkerDirect.World :=
  ⟨fun u => if u == "u1" then FetchOutcome.reject else FetchOutcome.success [7] none,
   fun _ => false⟩

/-- World in which the fetch of URL "u1" resolves with HTTP status 404 and
every other fetch succeeds. -/
def wHttp404U1 : WorkerDirect.World :=
  ⟨fun u => if u == "u1" then FetchOutcome.httpError 404 else FetchOutcome.success [7] none,
   fun _ => false⟩

/-- World whose fetches all reject. -/
def wAllReject : WorkerDirect.World :=
  ⟨fun _ => FetchOutcome.reject, fun _ => false⟩

/-- Initial run state over an empty bucket for the direct-URL variant. -/
def stD0 : WorkerDirect.St := ⟨[], [], []⟩

/-- A submission with two well-formed file references "u1" and "u2". -/
def subTwoFiles : SubRow :=
  ⟨"s1", .arr [⟨some "u1", some "3"⟩, ⟨some "u2", some "4"⟩]⟩

/-- A submission whose first file reference has no `originalUrl`. -/
def subNoUrl : SubRow :=
  ⟨"s1", .arr [⟨none, some "3"⟩, ⟨some "u2", some "4"⟩]⟩

/-- A fully populated environment for the startup check. -/
def envOk : WorkerDirect.Env := ⟨some "https://example.test", some "key"⟩

/-- Index-strategy world in which the file at index 0 of every submission
resolves with HTTP status 404 and every other index succeeds. -/
def wIdx404At0 : WorkerIndexed.World :=
  ⟨fun _ k => if k == 0 then FetchOutcome.httpError 404 else FetchOutcome.success [] none,
   fun _ => false⟩

/-- Initial run state over an empty bucket for the index-strategy variant. -/
def stI0 : WorkerIndexed.St := ⟨[], [], []⟩

/-- Answer-payload world whose fetches all resolve with HTTP status 500. -/
def wAns500 : WorkerAnswers.World :=
  ⟨fun _ _ => FetchOutcome.httpError 500, fun _ => false⟩

/-- Initial run state over an empty bucket for the answer-payload variant. -/
def stA0 : WorkerAnswers.St := ⟨[], [], []⟩

/-- Profile world whose reads and updates never fail. -/
def wProfOk : WorkerProfile.World := ⟨fun _ => false, fun _ => false⟩

/-- A sample profile image entry. -/
def imgSample : WorkerProfile.Image := ⟨"s1/3/a", "pub/s1/3/a", some "3", some "u1"⟩

/-- A sample profile table with one row for submission "s1" holding one
image entry. -/
def profTable : WorkerProfile.Table :=
  [("s1", .arr [⟨"s1/3/b", "pub/s1/3/b", some "3", some "u0"⟩])]

/-! Helper lemmas about the association-list store and small utilities. -/

theorem lookupKey_setKey {α : Type} (st : List (String × α)) (k p : String) (v : α) :
    lookupKey (setKey st k v) p = if p = k then some v else lookupKey st p := by
  induction st with
  | nil =>
    simp only [setKey, lookupKey]
    by_cases h : p = k
    · simp [h]
    · have h2 : ¬k = p := fun hh => h hh.symm
      simp [h, h2]
  | cons head rest ih =>
    obtain ⟨a, b⟩ := head
    by_cases ha : a = k
    · subst ha
      by_cases hp : p = a
      · simp [setKey, lookupKey, hp]
      · have hp2 : ¬a = p := fun hh => hp hh.symm
        simp [setKey, lookupKey, hp, hp2]
    · by_cases hp : a = p
      · have hk : ¬p = k := fun hh => ha (hp.trans hh)
        simp [setKey, lookupKey, ha, hp, hk]
      · simp [setKey, lookupKey, ha, hp, ih]

theorem setKey_setKey {α : Type} (st : List (String × α)) (k : String) (v1 v2 : α) :
    setKey (setKey st k v1) k v2 = setKey st k v2 := by
  induction st with
  | nil => simp [setKey]
  | cons head rest ih =>
    obtain ⟨a, b⟩ := head
    by_cases ha : a = k <;> simp [setKey, ha, ih]

theorem uploadToStorage_eq (fail : String → Bool) (store : Store) (path : String)
    (buffer : Bytes) (ct : String) :
    uploadToStorage fail store path buffer ct =
      if fail path then none else some (setKey store path ⟨buffer, ct⟩) := by
  by_cases h : fail path <;> simp [uploadToStorage, storagePut, h]

theorem jsOr_image_ne_empty (ct : Option String) : jsOr ct "image/jpeg" ≠ "" := by
  cases ct with
  | none => decide
  | some s =>
    simp only [jsOr]
    by_cases h : s = "" <;> simp [h]

theorem isNonEmptyFileUris_iff (v : FileUrisVal) :
    isNonEmptyFileUris v = true ↔ ∃ refs, v = FileUrisVal.arr refs ∧ refs ≠ [] := by
  cases v <;> simp [isNonEmptyFileUris]

/-! Trace lemmas for the direct-URL variant: when every file reference of
the processed list carries an origin URL and none of those URLs makes the
fetch promise reject, the loop finishes without an exception and attempts a
fetch for every listed URL in order, whatever the per-file HTTP statuses and
upload outcomes are. -/

theorem processFiles_trace (w : WorkerDirect.World) (sid : String) (files : List FileRef) :
    ∀ st : WorkerDirect.St,
      (∀ f ∈ files, (f.originalUrl).isSome = true) →
      (∀ u ∈ files.filterMap (fun g => g.originalUrl), w.fetch u ≠ FetchOutcome.reject) →
      (WorkerDirect.processFiles w sid files st).2 = none ∧
      (WorkerDirect.processFiles w sid files st).1.fetched
        = st.fetched ++ files.filterMap (fun g => g.originalUrl) := by
  induction files with
  | nil =>
    intro st _ _
    simp [WorkerDirect.processFiles]
  | cons fr rest ih =>
    intro st hwf hnr
    obtain ⟨u, hu⟩ := Option.isSome_iff_exists.mp (hwf fr (List.mem_cons_self fr rest))
    have hcons : (fr :: rest).filterMap (fun g => g.originalUrl)
        = u :: rest.filterMap (fun g => g.originalUrl) := by
      simp [List.filterMap_cons, hu]
    have hnr0 : w.fetch u ≠ FetchOutcome.reject :=
      hnr u (by rw [hcons]; exact List.mem_cons_self u _)
    have hwf1 : ∀ g ∈ rest, (g.originalUrl).isSome = true :=
      fun g hg => hwf g (List.mem_cons_of_mem fr hg)
    have hnr1 : ∀ v ∈ rest.filterMap (fun g => g.originalUrl),
        w.fetch v ≠ FetchOutcome.reject :=
      fun v hv => hnr v (by rw [hcons]; exact List.mem_cons_of_mem u hv)
    have key : ∀ st2 : WorkerDirect.St, st2.fetched = st.fetched ++ [u] →
        (WorkerDirect.processFiles w sid rest st2).2 = none ∧
        (WorkerDirect.processFiles w sid rest st2).1.fetched
          = st.fetched ++ (fr :: rest).filterMap (fun g => g.originalUrl) := by
      intro st2 h2
      have hrec := ih st2 hwf1 hnr1
      refine ⟨hrec.1, ?_⟩
      rw [hrec.2, h2, hcons]
      simp
    cases hfo : w.fetch u with
    | reject => exact absurd hfo hnr0
    | httpError s =>
      simp only [WorkerDirect.processFiles, hu, WorkerDirect.downloadOriginal, hfo]
      exact key _ (by simp [WorkerDirect.addFetched])
    | success body ct =>
      simp only [WorkerDirect.processFiles, hu, WorkerDirect.downloadOriginal, hfo]
      rw [uploadToStorage_eq]
      by_cases hf : w.storeFail (sid ++ "/" ++ jsStr fr.fieldId ++ "/" ++ lastSegment u)
      · rw [if_pos hf]
        exact key _ (by simp [WorkerDirect.addFetched])
      · rw [if_neg hf]
        exact key _ (by simp [WorkerDirect.addFetched])

theorem processSubs_trace (w : WorkerDirect.World) (subs : List SubRow) :
    ∀ st : WorkerDirect.St,
      (∀ s ∈ subs, ∃ refs, s.file_uris = FileUrisVal.arr refs) →
      (∀ s ∈ subs, ∀ f ∈ refsOf s.file_uris, (f.originalUrl).isSome = true) →
      (∀ s ∈ subs, ∀ u ∈ (refsOf s.file_uris).filterMap (fun g => g.originalUrl),
          w.fetch u ≠ FetchOutcome.reject) →
      (WorkerDirect.processSubs w subs st).2 = none ∧
      (WorkerDirect.processSubs w subs st).1.fetched = st.fetched ++ allUrls subs := by
  induction subs with
  | nil =>
    intro st _ _ _
    simp [WorkerDirect.processSubs, allUrls]
  | cons s rest ih =>
    intro st harr hwf hnr
    obtain ⟨refs, hrefs⟩ := harr s (List.mem_cons_self s rest)
    have hrefsOf : refsOf s.file_uris = refs := by rw [hrefs]; rfl
    have hwf0 : ∀ f ∈ refs, (f.originalUrl).isSome = true := by
      have h := hwf s (List.mem_cons_self s rest)
      rwa [hrefsOf] at h
    have hnr0 : ∀ u ∈ refs.filterMap (fun g => g.originalUrl),
        w.fetch u ≠ FetchOutcome.reject := by
      have h := hnr s (List.mem_cons_self s rest)
      rwa [hrefsOf] at h
    have hpf := processFiles_trace w s.submission_id refs st hwf0 hnr0
    rcases hfp : WorkerDirect.processFiles w s.submission_id refs st with ⟨st2, e⟩
    rw [hfp] at hpf
    obtain ⟨he, hfe⟩ := hpf
    have he2 : e = none := he
    subst he2
    have harr1 : ∀ t ∈ rest, ∃ refs2, t.file_uris = FileUrisVal.arr refs2 :=
      fun t ht => harr t (List.mem_cons_of_mem s ht)
    have hwf1 : ∀ t ∈ rest, ∀ f ∈ refsOf t.file_uris, (f.originalUrl).isSome = true :=
      fun t ht => hwf t (List.mem_cons_of_mem s ht)
    have hnr1 : ∀ t ∈ rest, ∀ u ∈ (refsOf t.file_uris).filterMap (fun g => g.originalUrl),
        w.fetch u ≠ FetchOutcome.reject :=
      fun t ht => hnr t (List.mem_cons_of_mem s ht)
    have hrec := ih st2 harr1 hwf1 hnr1
    simp only [WorkerDirect.processSubs, hrefs, hfp]
    refine ⟨hrec.1, ?_⟩
    rw [hrec.2]
    have hst2 : st2.fetched = st.fetched ++ refs.filterMap (fun g => g.originalUrl) := hfe
    rw [hst2]
    simp [allUrls, refsOf, hrefs, List.append_assoc]

/-- C1 (amended): in the direct-URL reconciler, a fetch failure that
resolves with a non-2xx HTTP status for the file at position i skips only
that file.  For every starting bucket state and every enumeration result
whose file references all carry an origin URL, provided no fetch promise
rejects (a network-level exception, which the source does not catch inside
the loops and which aborts the remainder of the run), the run completes
without an exception and attempts the per-file pipeline for every file
reference of every enumerated submission, in listed order, whatever the
per-file HTTP statuses and upload outcomes are. -/
theorem c1_fetch_failure_skips_only_that_file (w : WorkerDirect.World) (store0 : Store)
    (data : List SubRow)
    (hwf : ∀ s ∈ data, ∀ f ∈ refsOf s.file_uris, (f.originalUrl).isSome = true)
    (hnr : ∀ s ∈ data, ∀ u ∈ (refsOf s.file_uris).filterMap (fun g => g.originalUrl),
        w.fetch u ≠ FetchOutcome.reject) :
    (WorkerDirect.run w store0 (Except.ok data)).2 = none ∧
    (WorkerDirect.run w store0 (Except.ok data)).1.fetched
      = allUrls (data.filter fun s => isNonEmptyFileUris s.file_uris) := by
  have hfilter : ∀ s ∈ data.filter (fun s => isNonEmptyFileUris s.file_uris), s ∈ data :=
    fun s hs => (List.mem_filter.mp hs).1
  have harr : ∀ s ∈ data.filter (fun s => isNonEmptyFileUris s.file_uris),
      ∃ refs, s.file_uris = FileUrisVal.arr refs := by
    intro s hs
    obtain ⟨refs, h1, _⟩ := (isNonEmptyFileUris_iff _).mp (List.mem_filter.mp hs).2
    exact ⟨refs, h1⟩
  have h := processSubs_trace w (data.filter fun s => isNonEmptyFileUris s.file_uris)
    ⟨store0, [], []⟩ harr (fun s hs => hwf s (hfilter s hs)) (fun s hs => hnr s (hfilter s hs))
  simpa [WorkerDirect.run, getPending] using h

/-- Witness for C1 (amended) at a concrete input: submission "s1" lists the
files "u1" and "u2", the fetch of "u1" resolves with HTTP 404 and fails,
yet both files get their fetch attempt and the run completes without an
exception. -/
theorem c1_fetch_failure_skips_only_that_file_w :
    (WorkerDirect.run wHttp404U1 [] (Except.ok [subTwoFiles])).2 = none ∧
    (WorkerDirect.run wHttp404U1 [] (Except.ok [subTwoFiles])).1.fetched
      = allUrls ([subTwoFiles].filter fun s => isNonEmptyFileUris s.file_uris) :=
  c1_fetch_failure_skips_only_that_file wHttp404U1 [] [subTwoFiles]
    (by decide) (by decide)

/-- C1 counterexample: the claim as stated fails for a network-level fetch
failure.  In `wRejectU1` the fetch of "u1", the first file of submission
"s1", is a rejected promise (a fetch failure in the sense of the spec);
the run then stops with the uncaught rejection after attempting only "u1":
the remaining file reference "u2" of the same submission never gets a
pipeline attempt, although the claim requires it to be processed. -/
theorem c1_reject_aborts_rest_cex :
    WorkerDirect.run wRejectU1 [] (Except.ok [subTwoFiles])
      = (⟨[], [], ["u1"]⟩, some JsError.fetchRejected) := by decide

/-- C2 (amended): the process exit status is non-zero exactly when a
required configuration value is absent (or empty) at startup.  Every
failure inside run(), the initial enumeration query included, is caught by
the top-level `.catch`, which only logs the FATAL line: the process still
exits zero. -/
theorem c2_exit_code_depends_only_on_env (env : WorkerDirect.Env)
    (w : WorkerDirect.World) (store0 : Store) (rows : Except String (List SubRow)) :
    (WorkerDirect.mainResult env w store0 rows).1
      = if WorkerDirect.envMissing env then 1 else 0 := by
  by_cases h : WorkerDirect.envMissing env
  · simp [WorkerDirect.mainResult, h]
  · rcases hr : WorkerDirect.run w store0 rows with ⟨st, e⟩
    cases e <;> simp [WorkerDirect.mainResult, h, hr]

/-- C2 counterexample: with a fully populated environment and a failing
enumeration query (`Except.error "boom"`), the process exits 0, not
non-zero as the claim states: run() rejects with the rethrown query error,
`.catch` logs the FATAL line, and the exit status is unaffected. -/
theorem c2_enumeration_failure_exits_zero_cex :
    WorkerDirect.mainResult envOk wAllOk [] (Except.error "boom")
      = (0, some (⟨[], [], []⟩, some (JsError.dbError "boom")), true) := by decide

/-- C3 (amended): the origin-locator step is not total.  A file reference
whose `originalUrl` is missing makes `originalUrl.split("/")` throw a
TypeError that propagates out of the reconciler loop, abandoning the
remaining files and submissions of the run (direct-URL variant), and an
answer entry whose value is absent behaves the same in the answer-payload
variant (`url.split("/")` on undefined): in both cases the malformed
reference yields no fetch job and the loop returns its state unchanged
together with the exception instead of degrading to zero jobs. -/
theorem c3_missing_locator_raises (w : WorkerDirect.World) (sid : String)
    (fid : Option String) (rest : List FileRef) (st : WorkerDirect.St)
    (wc : WorkerAnswers.World) (sid2 fid2 : String)
    (rest2 : List (Option String)) (st2 : WorkerAnswers.St) :
    WorkerDirect.processFiles w sid (⟨none, fid⟩ :: rest) st
      = (st, some JsError.typeError) ∧
    WorkerAnswers.processUrls wc sid2 fid2 (none :: rest2) st2
      = (st2, some JsError.typeError) := by
  constructor <;> rfl

/-- C3 counterexample: a per-file input can terminate the run by an
exception.  Submission "s1" has a first file reference with no
`originalUrl`; the run throws a TypeError at once: the reference degrades
to an exception rather than zero jobs, and the well-formed second
reference "u2" is never processed. -/
theorem c3_missing_locator_cex :
    WorkerDirect.run wAllOk [] (Except.ok [subNoUrl])
      = (⟨[], [], []⟩, some JsError.typeError) := by decide

/-- C4 (amended): the Source Enumerator excludes file-less submissions only
in the filtering variants.  In both worker.js scripts and part_000,
`getPending` returns exactly the rows whose file-reference collection is a
non-empty array: the filter is applied without raising an error, and a row
belongs to the returned set iff it is among the queried rows and its
`file_uris` value is an array holding at least one reference, rows whose
`file_uris` is absent, null, empty, or otherwise not an array being
excluded.  The part_001 enumerator, by contrast, returns the successful
query result unfiltered: every row is included, whatever its file
references. -/
theorem c4_getPending_by_variant (data : List SubRow)
    (dataP : List WorkerAnswers.SubRowP) :
    (∃ l, getPending (Except.ok data) = Except.ok l ∧
      ∀ s, s ∈ l ↔ (s ∈ data ∧ ∃ refs, s.file_uris = FileUrisVal.arr refs ∧ refs ≠ [])) ∧
    WorkerAnswers.getPending (Except.ok dataP) = Except.ok dataP := by
  constructor
  · refine ⟨_, rfl, fun s => ?_⟩
    rw [List.mem_filter]
    exact and_congr_right fun _ => isNonEmptyFileUris_iff s.file_uris
  · rfl

/-- C4 counterexample: over the cited part_001 enumerator the claim fails.
The single queried row, for submission "s1", has no file-reference
collection at all (its payload carries no answers), yet `getPending` of
part_001 returns it instead of excluding it: the returned set is the full
query result, unfiltered. -/
theorem c4_part001_returns_unfiltered_cex :
    WorkerAnswers.getPending (Except.ok [⟨"s1", none⟩])
      = Except.ok [⟨"s1", none⟩] := rfl

/-- C6: for every fetch job of the direct-URL reconciler, the audit insert
happens iff both the origin fetch and the object-store write succeed.
Processing one file reference with origin URL u: on a rejected fetch the
exception propagates with the store and audit list untouched; on a non-2xx
fetch the loop continues with only the fetch trace extended, so neither the
object write nor the audit insert is attempted; on a 2xx fetch followed by
a failing store write the loop continues with store and audits untouched,
so no audit row is written; and on a 2xx fetch followed by a successful
store write exactly one audit row for this file is appended. -/
theorem c6_audit_iff_fetch_and_store (w : WorkerDirect.World) (sid : String)
    (f : FileRef) (u : String) (rest : List FileRef) (st : WorkerDirect.St)
    (hu : f.originalUrl = some u) :
    (w.fetch u = FetchOutcome.reject →
       WorkerDirect.processFiles w sid (f :: rest) st
         = (WorkerDirect.addFetched st u, some JsError.fetchRejected)) ∧
    (∀ s, w.fetch u = FetchOutcome.httpError s →
       WorkerDirect.processFiles w sid (f :: rest) st
         = WorkerDirect.processFiles w sid rest (WorkerDirect.addFetched st u)) ∧
    (∀ body ct, w.fetch u = FetchOutcome.success body ct →
       (w.storeFail (sid ++ "/" ++ jsStr f.fieldId ++ "/" ++ lastSegment u) = true →
          WorkerDirect.processFiles w sid (f :: rest) st
            = WorkerDirect.processFiles w sid rest (WorkerDirect.addFetched st u)) ∧
       (w.storeFail (sid ++ "/" ++ jsStr f.fieldId ++ "/" ++ lastSegment u) = false →
          WorkerDirect.processFiles w sid (f :: rest) st
            = WorkerDirect.processFiles w sid rest
                { WorkerDirect.addFetched st u with
                  store := setKey st.store
                    (sid ++ "/" ++ jsStr f.fieldId ++ "/" ++ lastSegment u)
                    ⟨body, jsOr ct "image/jpeg"⟩
                  audits := st.audits ++ [⟨sid, f.fieldId, u,
                    sid ++ "/" ++ jsStr f.fieldId ++ "/" ++ lastSegment u⟩] })) := by
  refine ⟨?_, ?_, ?_⟩
  · intro h
    simp [WorkerDirect.processFiles, hu, WorkerDirect.downloadOriginal, h]
  · intro s h
    simp [WorkerDirect.processFiles, hu, WorkerDirect.downloadOriginal, h]
  · intro body ct h
    constructor
    · intro hf
      simp only [WorkerDirect.processFiles, hu, WorkerDirect.downloadOriginal, h]
      rw [uploadToStorage_eq, if_pos hf]
    · intro hf
      simp only [WorkerDirect.processFiles, hu, WorkerDirect.downloadOriginal, h]
      rw [uploadToStorage_eq, if_neg (by simp [hf])]
      simp [WorkerDirect.addFetched]

/-- Witness for C6 at a concrete input: in `wAllOk` the fetch of "u1"
succeeds with body `[2, 3]` and no content-type header and the store write
succeeds, so processing the single file reference of submission "s1"
appends exactly one audit row and stores the object. -/
theorem c6_audit_iff_fetch_and_store_w :
    WorkerDirect.processFiles wAllOk "s1" [⟨some "u1", some "3"⟩] stD0
      = WorkerDirect.processFiles wAllOk "s1" []
          { WorkerDirect.addFetched stD0 "u1" with
            store := setKey stD0.store
              ("s1" ++ "/" ++ jsStr (some "3") ++ "/" ++ lastSegment "u1")
              ⟨[2, 3], jsOr none "image/jpeg"⟩
            audits := stD0.audits ++ [⟨"s1", some "3", "u1",
              "s1" ++ "/" ++ jsStr (some "3") ++ "/" ++ lastSegment "u1"⟩] } :=
  ((c6_audit_iff_fetch_and_store wAllOk "s1" ⟨some "u1", some "3"⟩ "u1" [] stD0
      rfl).2.2 [2, 3] none rfl).2 rfl

/-- C8: the object-store write always requests replace-if-exists semantics.
For a key that already holds an object, and absent unrelated infrastructure
failure of the store, the upload succeeds (key occupancy is never an
error), afterwards the key holds exactly the new payload and content type,
and a preceding successful upload of any payload to the same key does not
change the result of the next upload: the final state at the key depends
only on the last written payload, so re-running the same uploads is
idempotent. -/
theorem c8_upsert_overwrites_idempotently (fail : String → Bool) (store : Store)
    (path : String) (buffer : Bytes) (ct : String) (old : StoredObj)
    (hfail : fail path = false) (hold : lookupKey store path = some old) :
    (∃ store2, uploadToStorage fail store path buffer ct = some store2 ∧
       lookupKey store2 path = some ⟨buffer, ct⟩) ∧
    (∀ b1 c1 store1, uploadToStorage fail store path b1 c1 = some store1 →
       uploadToStorage fail store1 path buffer ct
         = uploadToStorage fail store path buffer ct) := by
  constructor
  · refine ⟨setKey store path ⟨buffer, ct⟩, ?_, ?_⟩
    · rw [uploadToStorage_eq, if_neg (by simp [hfail])]
    · rw [lookupKey_setKey]
      simp
  · intro b1 c1 store1 h1
    rw [uploadToStorage_eq, if_neg (by simp [hfail])] at h1
    have h2 := Option.some.inj h1
    subst h2
    rw [uploadToStorage_eq, uploadToStorage_eq,
      if_neg (by simp [hfail]), if_neg (by simp [hfail]), setKey_setKey]

/-- Witness for C8 at a concrete input: the key "k" already holds an object
with payload `[1]`; uploading payload `[9]` with content type "image/png"
succeeds, overwrites it, and is insensitive to an intermediate upload. -/
theorem c8_upsert_overwrites_idempotently_w :
    (∃ store2,
       uploadToStorage (fun _ => false) [("k", ⟨[1], "text/plain"⟩)] "k" [9] "image/png"
         = some store2 ∧
       lookupKey store2 "k" = some ⟨[9], "image/png"⟩) ∧
    (∀ b1 c1 store1,
       uploadToStorage (fun _ => false) [("k", ⟨[1], "text/plain"⟩)] "k" b1 c1
         = some store1 →
       uploadToStorage (fun _ => false) store1 "k" [9] "image/png"
         = uploadToStorage (fun _ => false) [("k", ⟨[1], "text/plain"⟩)] "k" [9] "image/png") :=
  c8_upsert_overwrites_idempotently (fun _ => false) [("k", ⟨[1], "text/plain"⟩)]
    "k" [9] "image/png" ⟨[1], "text/plain"⟩ rfl (by decide)

/-! Content-type invariant lemmas for C10. -/

theorem storeCT_setKey (store : Store) (p : String) (o : StoredObj)
    (hs : storeCT store) (ho : o.contentType ≠ "") : storeCT (setKey store p o) := by
  intro q oq hq
  rw [lookupKey_setKey] at hq
  by_cases h : q = p
  · rw [if_pos h] at hq
    cases Option.some.inj hq
    exact ho
  · rw [if_neg h] at hq
    exact hs q oq hq

theorem processFiles_storeCT (w : WorkerDirect.World) (sid : String) (files : List FileRef) :
    ∀ st : WorkerDirect.St, storeCT st.store →
      storeCT (WorkerDirect.processFiles w sid files st).1.store := by
  induction files with
  | nil =>
    intro st h
    simpa [WorkerDirect.processFiles] using h
  | cons fr rest ih =>
    intro st h
    cases hu : fr.originalUrl with
    | none => simpa [WorkerDirect.processFiles, hu] using h
    | some u =>
      cases hfo : w.fetch u with
      | reject =>
        simp only [WorkerDirect.processFiles, hu, WorkerDirect.downloadOriginal, hfo]
        simpa [WorkerDirect.addFetched] using h
      | httpError s =>
        simp only [WorkerDirect.processFiles, hu, WorkerDirect.downloadOriginal, hfo]
        exact ih _ (by simpa [WorkerDirect.addFetched] using h)
      | success body ct =>
        simp only [WorkerDirect.processFiles, hu, WorkerDirect.downloadOriginal, hfo]
        rw [uploadToStorage_eq]
        by_cases hf : w.storeFail (sid ++ "/" ++ jsStr fr.fieldId ++ "/" ++ lastSegment u)
        · rw [if_pos hf]
          exact ih _ (by simpa [WorkerDirect.addFetched] using h)
        · rw [if_neg hf]
          refine ih _ ?_
          simp only [WorkerDirect.addFetched]
          exact storeCT_setKey _ _ _ (by simpa using h) (jsOr_image_ne_empty ct)

theorem processSubs_storeCT (w : WorkerDirect.World) (subs : List SubRow) :
    ∀ st : WorkerDirect.St, storeCT st.store →
      storeCT (WorkerDirect.processSubs w subs st).1.store := by
  induction subs with
  | nil =>
    intro st h
    simpa [WorkerDirect.processSubs] using h
  | cons s rest ih =>
    intro st h
    cases hv : s.file_uris with
    | arr files =>
      rcases hfp : WorkerDirect.processFiles w s.submission_id files st with ⟨st2, e⟩
      have h2 : storeCT st2.store := by
        have h3 := processFiles_storeCT w s.submission_id files st h
        rwa [hfp] at h3
      simp only [WorkerDirect.processSubs, hv, hfp]
      cases e with
      | none => exact ih st2 h2
      | some err => exact h2
    | null => simpa [WorkerDirect.processSubs, hv] using h
    | absent => simpa [WorkerDirect.processSubs, hv] using h
    | other => simpa [WorkerDirect.processSubs, hv] using h

/-- C10: a successful origin fetch whose HTTP response carries no
content-type header yields the defaulted type "image/jpeg"; a successful
download never carries an empty content type (the default also replaces an
empty header because the empty string is falsy under JavaScript `||`); and
since the downloaded content type is exactly what `uploadToStorage`
receives, every object in the final bucket of a run has a non-empty
content type whenever every object of the initial bucket had one. -/
theorem c10_content_type_default (w : WorkerDirect.World) (store0 : Store)
    (rows : Except String (List SubRow)) (url : String) :
    (∀ body, w.fetch url = FetchOutcome.success body none →
       WorkerDirect.downloadOriginal w url = Except.ok (some ⟨body, "image/jpeg"⟩)) ∧
    (∀ dl, WorkerDirect.downloadOriginal w url = Except.ok (some dl) →
       dl.contentType ≠ "") ∧
    (storeCT store0 → storeCT (WorkerDirect.run w store0 rows).1.store) := by
  refine ⟨?_, ?_, ?_⟩
  · intro body h
    simp [WorkerDirect.downloadOriginal, h, jsOr]
  · intro dl h
    cases hfo : w.fetch url with
    | reject => simp [WorkerDirect.downloadOriginal, hfo] at h
    | httpError s => simp [WorkerDirect.downloadOriginal, hfo] at h
    | success body ct =>
      simp only [WorkerDirect.downloadOriginal, hfo, Except.ok.injEq,
        Option.some.injEq] at h
      rw [← h]
      exact jsOr_image_ne_empty ct
  · intro h0
    cases rows with
    | error e => simpa [WorkerDirect.run, getPending] using h0
    | ok data =>
      simp only [WorkerDirect.run, getPending]
      exact processSubs_storeCT w _ ⟨store0, [], []⟩ h0

/-- Witness for C10 at a concrete input: the fetch of "u1" in `wAllOk`
succeeds with no content-type header, and the download result defaults to
"image/jpeg". -/
theorem c10_content_type_default_w :
    WorkerDirect.downloadOriginal wAllOk "u1" = Except.ok (some ⟨[2, 3], "image/jpeg"⟩) :=
  (c10_content_type_default wAllOk [] (Except.ok [subTwoFiles]) "u1").1 [2, 3] rfl

/-! Trace lemmas for the index-strategy variant. -/

theorem processFilesIdx_trace (w : WorkerIndexed.World) (sid : String)
    (files : List FileRef) :
    ∀ (i : Nat) (st : WorkerIndexed.St),
      (∀ f ∈ files, (f.originalUrl).isSome = true) →
      (∀ k ∈ List.range' i files.length, w.fetchFile sid k ≠ FetchOutcome.reject) →
      (WorkerIndexed.processFiles w sid files i st).2 = none ∧
      (WorkerIndexed.processFiles w sid files i st).1.downloads
        = st.downloads ++ (List.range' i files.length).map (fun k => (sid, k)) := by
  induction files with
  | nil =>
    intro i st _ _
    simp [WorkerIndexed.processFiles]
  | cons fr rest ih =>
    intro i st hwf hnr
    obtain ⟨u, hu⟩ := Option.isSome_iff_exists.mp (hwf fr (List.mem_cons_self fr rest))
    have hrange : List.range' i (fr :: rest).length
        = i :: List.range' (i + 1) rest.length := by
      simp [List.range'_succ]
    have hnr0 : w.fetchFile sid i ≠ FetchOutcome.reject :=
      hnr i (by rw [hrange]; exact List.mem_cons_self i _)
    have hwf1 : ∀ g ∈ rest, (g.originalUrl).isSome = true :=
      fun g hg => hwf g (List.mem_cons_of_mem fr hg)
    have hnr1 : ∀ k ∈ List.range' (i + 1) rest.length,
        w.fetchFile sid k ≠ FetchOutcome.reject :=
      fun k hk => hnr k (by rw [hrange]; exact List.mem_cons_of_mem i hk)
    have key : ∀ st2 : WorkerIndexed.St,
        st2.downloads = st.downloads ++ [(sid, i)] →
        (WorkerIndexed.processFiles w sid rest (i + 1) st2).2 = none ∧
        (WorkerIndexed.processFiles w sid rest (i + 1) st2).1.downloads
          = st.downloads ++ (List.range' i (fr :: rest).length).map (fun k => (sid, k)) := by
      intro st2 h2
      have hrec := ih (i + 1) st2 hwf1 hnr1
      refine ⟨hrec.1, ?_⟩
      rw [hrec.2, h2, hrange]
      simp
    cases hfo : w.fetchFile sid i with
    | reject => exact absurd hfo hnr0
    | httpError s =>
      simp only [WorkerIndexed.processFiles, hu, WorkerIndexed.downloadImage, hfo]
      exact key _ (by simp)
    | success body ct =>
      simp only [WorkerIndexed.processFiles, hu, WorkerIndexed.downloadImage, hfo]
      rw [uploadToStorage_eq]
      by_cases hf : w.storeFail (sid ++ "/" ++ jsStr fr.fieldId ++ "/" ++ lastSegment u)
      · rw [if_pos hf]
        exact key _ (by simp)
      · rw [if_neg hf]
        exact key _ (by simp)

theorem processSubsIdx_trace (w : WorkerIndexed.World) (subs : List SubRow) :
    ∀ st : WorkerIndexed.St,
      (∀ s ∈ subs, ∃ refs, s.file_uris = FileUrisVal.arr refs) →
      (∀ s ∈ subs, ∀ f ∈ refsOf s.file_uris, (f.originalUrl).isSome = true) →
      (∀ s ∈ subs, ∀ k ∈ List.range (refsOf s.file_uris).length,
          w.fetchFile s.submission_id k ≠ FetchOutcome.reject) →
      (WorkerIndexed.processSubs w subs st).2 = none ∧
      (WorkerIndexed.processSubs w subs st).1.downloads = st.downloads ++ allIdx subs := by
  induction subs with
  | nil =>
    intro st _ _ _
    simp [WorkerIndexed.processSubs, allIdx]
  | cons s rest ih =>
    intro st harr hwf hnr
    obtain ⟨refs, hrefs⟩ := harr s (List.mem_cons_self s rest)
    have hrefsOf : refsOf s.file_uris = refs := by rw [hrefs]; rfl
    have hwf0 : ∀ f ∈ refs, (f.originalUrl).isSome = true := by
      have h := hwf s (List.mem_cons_self s rest)
      rwa [hrefsOf] at h
    have hnr0 : ∀ k ∈ List.range' 0 refs.length,
        w.fetchFile s.submission_id k ≠ FetchOutcome.reject := by
      have h := hnr s (List.mem_cons_self s rest)
      rw [hrefsOf] at h
      intro k hk
      exact h k (by rwa [List.range_eq_range'])
    have hpf := processFilesIdx_trace w s.submission_id refs 0 st hwf0 hnr0
    rcases hfp : WorkerIndexed.processFiles w s.submission_id refs 0 st with ⟨st2, e⟩
    rw [hfp] at hpf
    obtain ⟨he, hfe⟩ := hpf
    have he2 : e = none := he
    subst he2
    have harr1 : ∀ t ∈ rest, ∃ refs2, t.file_uris = FileUrisVal.arr refs2 :=
      fun t ht => harr t (List.mem_cons_of_mem s ht)
    have hwf1 : ∀ t ∈ rest, ∀ f ∈ refsOf t.file_uris, (f.originalUrl).isSome = true :=
      fun t ht => hwf t (List.mem_cons_of_mem s ht)
    have hnr1 : ∀ t ∈ rest, ∀ k ∈ List.range (refsOf t.file_uris).length,
        w.fetchFile t.submission_id k ≠ FetchOutcome.reject :=
      fun t ht => hnr t (List.mem_cons_of_mem s ht)
    have hrec := ih st2 harr1 hwf1 hnr1
    simp only [WorkerIndexed.processSubs, hrefs, hfp]
    refine ⟨hrec.1, ?_⟩
    rw [hrec.2]
    have hst2 : st2.downloads
        = st.downloads ++ (List.range' 0 refs.length).map
            (fun k => (s.submission_id, k)) := hfe
    rw [hst2]
    simp [allIdx, refsOf, hrefs, List.range_eq_range', List.append_assoc]

/-- C5: in the index strategy, the per-submission position counter starts
at 0 and is incremented exactly once per listed file reference, on every
control path.  For every enumeration result whose file references all carry
an origin URL, provided no fetch promise rejects, the run completes and the
download attempts are exactly one per file reference of each enumerated
submission, using consecutive indices 0, 1, ..., n-1 within each
submission in list order, with no index skipped or repeated, whatever the
per-file fetch and upload outcomes are. -/
theorem c5_fileIndex_counts_every_ref (w : WorkerIndexed.World) (store0 : Store)
    (data : List SubRow)
    (hwf : ∀ s ∈ data, ∀ f ∈ refsOf s.file_uris, (f.originalUrl).isSome = true)
    (hnr : ∀ s ∈ data, ∀ k ∈ List.range (refsOf s.file_uris).length,
        w.fetchFile s.submission_id k ≠ FetchOutcome.reject) :
    (WorkerIndexed.run w store0 (Except.ok data)).2 = none ∧
    (WorkerIndexed.run w store0 (Except.ok data)).1.downloads
      = allIdx (data.filter fun s => isNonEmptyFileUris s.file_uris) := by
  have hfilter : ∀ s ∈ data.filter (fun s => isNonEmptyFileUris s.file_uris), s ∈ data :=
    fun s hs => (List.mem_filter.mp hs).1
  have harr : ∀ s ∈ data.filter (fun s => isNonEmptyFileUris s.file_uris),
      ∃ refs, s.file_uris = FileUrisVal.arr refs := by
    intro s hs
    obtain ⟨refs, h1, _⟩ := (isNonEmptyFileUris_iff _).mp (List.mem_filter.mp hs).2
    exact ⟨refs, h1⟩
  have h := processSubsIdx_trace w (data.filter fun s => isNonEmptyFileUris s.file_uris)
    ⟨store0, [], []⟩ harr (fun s hs => hwf s (hfilter s hs)) (fun s hs => hnr s (hfilter s hs))
  simpa [WorkerIndexed.run, getPending] using h

/-- Witness for C5 at a concrete input: submission "s1" lists two files,
the download at index 0 fails with HTTP 404, the one at index 1 succeeds;
the download attempts still use exactly the indices 0 and 1 in order. -/
theorem c5_fileIndex_counts_every_ref_w :
    (WorkerIndexed.run wIdx404At0 [] (Except.ok [subTwoFiles])).2 = none ∧
    (WorkerIndexed.run wIdx404At0 [] (Except.ok [subTwoFiles])).1.downloads
      = allIdx ([subTwoFiles].filter fun s => isNonEmptyFileUris s.file_uris) :=
  c5_fileIndex_counts_every_ref wIdx404At0 [] [subTwoFiles] (by decide) (by decide)

/-! Trace lemma for the answer-payload variant. -/

theorem processUrls_trace (w : WorkerAnswers.World) (sid fid : String)
    (urls : List String) :
    ∀ st : WorkerAnswers.St, w.fetchFile sid fid ≠ FetchOutcome.reject →
      (WorkerAnswers.processUrls w sid fid (urls.map some) st).2 = none ∧
      (WorkerAnswers.processUrls w sid fid (urls.map some) st).1.downloads
        = st.downloads ++ urls.map (fun v => (sid, fid, lastSegment v)) := by
  induction urls with
  | nil =>
    intro st _
    simp [WorkerAnswers.processUrls]
  | cons u rest ih =>
    intro st hnr
    have key : ∀ st2 : WorkerAnswers.St,
        st2.downloads = st.downloads ++ [(sid, fid, lastSegment u)] →
        (WorkerAnswers.processUrls w sid fid (rest.map some) st2).2 = none ∧
        (WorkerAnswers.processUrls w sid fid (rest.map some) st2).1.downloads
          = st.downloads ++ (u :: rest).map (fun v => (sid, fid, lastSegment v)) := by
      intro st2 h2
      have hrec := ih st2 hnr
      refine ⟨hrec.1, ?_⟩
      rw [hrec.2, h2]
      simp
    cases hfo : w.fetchFile sid fid with
    | reject => exact absurd hfo hnr
    | httpError s =>
      simp only [List.map_cons, WorkerAnswers.processUrls,
        WorkerAnswers.downloadImage, hfo]
      exact key _ (by simp)
    | success body ct =>
      simp only [List.map_cons, WorkerAnswers.processUrls,
        WorkerAnswers.downloadImage, hfo]
      rw [uploadToStorage_eq]
      by_cases hf : w.storeFail (sid ++ "/" ++ fid ++ "/" ++ lastSegment u)
      · rw [if_pos hf]
        exact key _ (by simp)
      · rw [if_neg hf]
        exact key _ (by simp)

/-- C7: the answer-payload strategy produces fetch jobs only for answer
entries whose declared type is "control_fileupload", and it normalizes a
single-URL answer and a list answer to the same downstream shape:
processing an entry whose answer is the single URL s is identical to
processing the same entry with the one-element list [s]; an entry of any
other declared type contributes nothing to the run; and, for an n-element
URL list (absent rejected fetch promises), the loop attempts exactly one
download job per URL, in list order. -/
theorem c7_answer_normalization (w : WorkerAnswers.World) (sid fieldId : String)
    (t : Option String) (s : String) (a : WorkerAnswers.Ans)
    (rest : List (String × WorkerAnswers.Ans)) (urls : List String)
    (st : WorkerAnswers.St) :
    (WorkerAnswers.processAnswers w sid ((fieldId, ⟨t, .str s⟩) :: rest) st
       = WorkerAnswers.processAnswers w sid ((fieldId, ⟨t, .arr [s]⟩) :: rest) st) ∧
    (a.type ≠ some "control_fileupload" →
       WorkerAnswers.processAnswers w sid ((fieldId, a) :: rest) st
         = WorkerAnswers.processAnswers w sid rest st) ∧
    (w.fetchFile sid fieldId ≠ FetchOutcome.reject →
       (WorkerAnswers.processUrls w sid fieldId (urls.map some) st).2 = none ∧
       (WorkerAnswers.processUrls w sid fieldId (urls.map some) st).1.downloads
         = st.downloads ++ urls.map (fun v => (sid, fieldId, lastSegment v))) := by
  refine ⟨rfl, ?_, ?_⟩
  · intro h
    simp [WorkerAnswers.processAnswers, beq_iff_eq, h]
  · intro h
    exact processUrls_trace w sid fieldId urls st h

/-- Witness for C7 at concrete inputs: a "control_textbox" entry is skipped
entirely, and the two-element URL list ["a/b", "c"] of an upload entry
yields exactly two download jobs in order even though every fetch resolves
with HTTP 500. -/
theorem c7_answer_normalization_w :
    (WorkerAnswers.processAnswers wAns500 "s1"
        [("4", ⟨some "control_textbox", .str "x"⟩)] stA0
       = WorkerAnswers.processAnswers wAns500 "s1" [] stA0) ∧
    ((WorkerAnswers.processUrls wAns500 "s1" "3" (["a/b", "c"].map some) stA0).2 = none ∧
     (WorkerAnswers.processUrls wAns500 "s1" "3" (["a/b", "c"].map some) stA0).1.downloads
       = stA0.downloads ++ ["a/b", "c"].map (fun v => ("s1", "3", lastSegment v))) :=
  ⟨(c7_answer_normalization wAns500 "s1" "4" (some "control_textbox") "x"
      ⟨some "control_textbox", .str "x"⟩ [] [] stA0).2.1 (by decide),
   (c7_answer_normalization wAns500 "s1" "3" none "" ⟨none, .undef⟩ [] ["a/b", "c"]
      stA0).2.2 (by decide)⟩

/-- C9: the profile-aggregate update is a read-modify-write appending
exactly one entry.  If the initial read of the profile row fails (a query
failure, or no row matching the submission id, which makes `.single()`
error), no write-back is attempted and the whole table is unchanged.  If
the read succeeds and the update succeeds, the row is replaced by the
current collection with the new entry appended at the end, a missing or
non-array stored value counting as the empty collection. -/
theorem c9_profile_read_modify_write (w : WorkerProfile.World)
    (profiles : WorkerProfile.Table) (sid : String) (img : WorkerProfile.Image) :
    (w.readFail sid = true →
       WorkerProfile.updateProfileImages w profiles sid img = profiles) ∧
    (lookupKey profiles sid = none →
       WorkerProfile.updateProfileImages w profiles sid img = profiles) ∧
    (∀ v, w.readFail sid = false → lookupKey profiles sid = some v →
       w.updateFail sid = false →
       WorkerProfile.updateProfileImages w profiles sid img
         = setKey profiles sid (.arr (WorkerProfile.imagesAsArray v ++ [img]))) := by
  refine ⟨?_, ?_, ?_⟩
  · intro h
    simp [WorkerProfile.updateProfileImages, h]
  · intro h
    by_cases hr : w.readFail sid
    · simp [WorkerProfile.updateProfileImages, hr]
    · simp [WorkerProfile.updateProfileImages, hr, h]
  · intro v h1 h2 h3
    simp [WorkerProfile.updateProfileImages, h1, h2, h3]

/-- Witness for C9 at a concrete input: in `wProfOk` both the read and the
update succeed, the row for "s1" holds a one-element collection, and the
update appends `imgSample` at its end. -/
theorem c9_profile_read_modify_write_w :
    WorkerProfile.updateProfileImages wProfOk profTable "s1" imgSample
      = setKey profTable "s1"
          (.arr (WorkerProfile.imagesAsArray
            (.arr [⟨"s1/3/b", "pub/s1/3/b", some "3", some "u0"⟩]) ++ [imgSample])) :=
  (c9_profile_read_modify_write wProfOk profTable "s1" imgSample).2.2
    (.arr [⟨"s1/3/b", "pub/s1/3/b", some "3", some "u0"⟩]) rfl (by decide) rfl
